import Mathlib

/-!
Verification development for `digitalFotoFrame.py`, a single-file photo
slideshow program.  Python strings are modelled as `List Char`, Python
floats as exact rationals `ℚ` (the claims under study are about the exact
arithmetic the source expresses, none hinges on binary rounding), Python
ints as `Int`, and the fallible file read as an `Option` input.
-/

namespace FotoFrame

/-! ## ConfigLoader: embedding of `checkForControlFile` (source lines 78-133) -/

/-- The Python string literal `'DELAY='` from `line.startswith('DELAY=')`. -/
def lDELAY : List Char := ['D', 'E', 'L', 'A', 'Y', '=']

/-- The Python string literal `'WAKE='`. -/
def lWAKE : List Char := ['W', 'A', 'K', 'E', '=']

/-- The Python string literal `'SLEEP='`. -/
def lSLEEP : List Char := ['S', 'L', 'E', 'E', 'P', '=']

/-- The Python string literal `'PATH='`. -/
def lPATH : List Char := ['P', 'A', 'T', 'H', '=']

/-- Whitespace stripped by Python `float()` before parsing. -/
def isPyWhitespace (c : Char) : Bool :=
  c = ' ' || c = '\t' || c = '\n' || c = '\r'

/-- Strip leading and trailing whitespace, as Python `float()` does. -/
def stripWs (l : List Char) : List Char :=
  ((l.dropWhile isPyWhitespace).reverse.dropWhile isPyWhitespace).reverse

/-- Value of a digit string, most significant digit first. -/
def digitsVal (l : List Char) : Nat :=
  l.foldl (fun a c => 10 * a + (c.toNat - 48)) 0

/-- Model of Python `float(s)` restricted to plain decimal literals: optional
sign, digits, optional `.` and fraction digits, surrounded by optional
whitespace.  `none` models the `ValueError` that the source's bare
`except:` catches (exponents, `inf`, `nan` and underscores are outside the
inputs the claims quantify over and also map to `none`). -/
def parseFloat (s : List Char) : Option ℚ :=
  let t := stripWs s
  let p : ℚ × List Char :=
    match t with
    | '+' :: r => (1, r)
    | '-' :: r => (-1, r)
    | r => (1, r)
  let ip := p.2.takeWhile Char.isDigit
  let rest := p.2.dropWhile Char.isDigit
  match rest with
  | [] => if ip.isEmpty then none else some (p.1 * digitsVal ip)
  | '.' :: fr =>
    if fr.all Char.isDigit && !(ip.isEmpty && fr.isEmpty) then
      some (p.1 * ((digitsVal ip : ℚ) + (digitsVal fr : ℚ) / (10 : ℚ) ^ fr.length))
    else none
  | _ => none

/-- The four configuration values threaded through `checkForControlFile`
(result slots 0..3 of the Python list `result`). -/
structure Config where
  delay : ℚ
  wakeHour : Int
  sleepHour : Int
  path : List Char
deriving DecidableEq, Repr

/-- One pass of the `for line in finp` loop of `checkForControlFile`
(source lines 104-126), accumulating the partially updated `result` list
and the `readparams` bitmask.  A `parseFloat` failure models the exception
raised by `float(...)`: it aborts the whole read loop (the bare `except:`
wraps the entire `with` block), leaving the values and bits gathered so
far in place.  The source tests the four prefixes with independent `if`s;
as no line can start with two of the distinct keywords this is the same as
the `if`/`else if` chain used here.  Clamping follows the source exactly:
`max` then `min`, then `int(...)` (truncation; the clamped value is
nonnegative, so truncation is `Int.floor`). -/
def checkLines : List (List Char) → Config → Nat → Config × Nat
  | [], cfg, bits => (cfg, bits)
  | line :: rest, cfg, bits =>
    if lDELAY.isPrefixOf line then
      match parseFloat (line.drop 6) with
      | none => (cfg, bits)
      | some x => checkLines rest { cfg with delay := min 60 (max 1 x) } (bits ||| 1)
    else if lWAKE.isPrefixOf line then
      match parseFloat (line.drop 5) with
      | none => (cfg, bits)
      | some x => checkLines rest { cfg with wakeHour := ⌊min 10 (max 0 x)⌋ } (bits ||| 2)
    else if lSLEEP.isPrefixOf line then
      match parseFloat (line.drop 6) with
      | none => (cfg, bits)
      | some x => checkLines rest { cfg with sleepHour := ⌊min 23 (max 0 x)⌋ } (bits ||| 4)
    else if lPATH.isPrefixOf line then
      checkLines rest { cfg with path := (line.drop 5).dropLast } (bits ||| 8)
    else
      checkLines rest cfg bits

/-- Embedding of `checkForControlFile` (source lines 78-133).  `contents`
is the list of lines Python's file iteration yields (each including its
trailing newline, except possibly the last); `none` models a file that
cannot be opened, in which case the bare `except:` leaves `result` at its
initial value.  The boolean is `result[4]`: true exactly when
`readparams == 15`. -/
def checkForControlFile (contents : Option (List (List Char))) (delay : ℚ)
    (wakeHour bedtimeHour : Int) (photoFolder : List Char) : Config × Bool :=
  match contents with
  | none => (⟨delay, wakeHour, bedtimeHour, photoFolder⟩, false)
  | some lines =>
    let r := checkLines lines ⟨delay, wakeHour, bedtimeHour, photoFolder⟩ 0
    (r.1, r.2 == 15)

/-! ## FileScanner: embedding of `scanForFiles` (source lines 59-71) -/

/-- A directory entry as seen by `os.scandir`: a regular file or a
subdirectory with its own entries.  A directory of the filesystem is a
`List FSEntry` in the (unspecified) order the OS yields its entries. -/
inductive FSEntry where
  | file (name : List Char)
  | dir (name : List Char) (children : List FSEntry)

/-- The Python string literal `'.jpg'`. -/
def lJPG : List Char := ['.', 'j', 'p', 'g']

/-- The Python string literal `'.png'`. -/
def lPNG : List Char := ['.', 'p', 'n', 'g']

/-- The eligibility test of source lines 64-65:
`fn = entry.name.lower(); fn.endswith('.jpg') or fn.endswith('.png')`. -/
def eligibleName (name : List Char) : Bool :=
  let fn := name.map Char.toLower
  lJPG.isSuffixOf fn || lPNG.isSuffixOf fn

/-- `entry.path` of an `os.scandir` entry: the scanned folder joined with
the entry name by the path separator. -/
def entryPath (folder name : List Char) : List Char :=
  folder ++ '/' :: name

/-- Embedding of `scanForFiles(folder)` (source lines 59-71), written over
the scanned directory's entry list: files matching `eligibleName` are
appended in entry order; directory entries contribute their recursive scan
in place (`pictureFiles.extend(x)`). -/
def scanForFiles (folder : List Char) : List FSEntry → List (List Char)
  | [] => []
  | FSEntry.file n :: rest =>
    (if eligibleName n then [entryPath folder n] else []) ++ scanForFiles folder rest
  | FSEntry.dir n cs :: rest =>
    scanForFiles (entryPath folder n) cs ++ scanForFiles folder rest

/-- Contribution of a single directory entry to the scan: the (possibly
empty) file match, or the recursive scan of a subdirectory.  Proof-side
companion used to state that `scanForFiles` processes entries
independently and in order. -/
def scanOne (folder : List Char) : FSEntry → List (List Char)
  | FSEntry.file n => if eligibleName n then [entryPath folder n] else []
  | FSEntry.dir n cs => scanForFiles (entryPath folder n) cs

/-- All regular files of a tree, as pairs of full path and bare name, in
traversal order.  Specification-side companion of `scanForFiles` used to
state that the scan returns exactly the eligible files. -/
def allFiles (folder : List Char) : List FSEntry → List (List Char × List Char)
  | [] => []
  | FSEntry.file n :: rest => (entryPath folder n, n) :: allFiles folder rest
  | FSEntry.dir n cs :: rest => allFiles (entryPath folder n) cs ++ allFiles folder rest

/-! ## ImageFitter: embedding of the resize/border block (source lines 255-267) -/

/-- Embedding of the fit computation of source lines 255-267 for an image
of `img.shape = (imgH, imgW)` on a screen of `wid × hgt`: ratios, `min`,
`dims = (int(ratio*w), int(ratio*h))`, and the two borders
`max(1, int((screen - resized)/2))`.  Python `int()` truncates toward
zero; every truncated quantity here is nonnegative (the ratios are ratios
of positive sizes and `dims` never exceeds the screen), so it is modelled
by `Int.floor`.  Returns `((resizedW, resizedH), (borderX, borderY))`. -/
def imageFit (wid hgt : ℚ) (imgW imgH : Nat) : (Int × Int) × (Int × Int) :=
  let widratio := wid / (imgW : ℚ)
  let hgtratio := hgt / (imgH : ℚ)
  let ratio := min widratio hgtratio
  let dimsW : Int := ⌊ratio * (imgW : ℚ)⌋
  let dimsH : Int := ⌊ratio * (imgH : ℚ)⌋
  let widborder : Int := max 1 ⌊(wid - (dimsW : ℚ)) / 2⌋
  let hgtborder : Int := max 1 ⌊(hgt - (dimsH : ℚ)) / 2⌋
  ((dimsW, dimsH), (widborder, hgtborder))

/-! ## Scheduler and SlideshowPlayer: embedding of `runFotoFrame`
(source lines 149-298).

The loop body interacts with the outside world (wall clock, control file,
directory tree, image decoder, keyboard).  These inputs are supplied per
iteration by an `Env`; the loop body itself is the pure step function
`stepIter`.  Observable display activity is recorded as a trace of
events. -/

/-- The external inputs one iteration of the inner `for fn in pictureFiles`
loop can observe:
* `hour`: `datetime.datetime.now().hour` at the top of the iteration;
* `configFile`: contents of `instructions.ini` as a list of lines, `none`
  when opening it fails;
* `rescan`: result of `scanForFiles(folder)` followed by `random.shuffle`
  for the folder the refresh would scan (the shuffle's randomness is folded
  into the environment);
* `decode`: result of `cv2.imread(fn, 1)` for a path: `none` when it fails
  or returns `None` (so that `len(img)` raises), `some n` for an image with
  `n` pixel rows;
* `keyRaw`: the raw `cv2.waitKey` return value for the wait performed in
  this iteration (−1 on timeout). -/
structure Env where
  hour : Int
  configFile : Option (List (List Char))
  rescan : List Char → List (List Char)
  decode : List Char → Option Nat
  keyRaw : Int

/-- The mutable locals of `runFotoFrame` that persist across iterations:
`delay`, `wakehour`, `bedtimehour`, `photoFolder`, `lastHour`, `sleeping`,
`pictureFiles` and `done`. -/
structure FrameState where
  delay : ℚ
  wakehour : Int
  bedtimehour : Int
  photoFolder : List Char
  lastHour : Int
  sleeping : Bool
  pictureFiles : List (List Char)
  done : Bool
deriving DecidableEq, Repr

/-- Observable display-loop events: a frame submitted to the surface for a
path, a `cv2.waitKey` blocking wait of the given millisecond timeout, and
the final `cv2.destroyWindow`. -/
inductive Ev where
  | display (fn : List Char)
  | wait (ms : Int)
  | destroy
deriving DecidableEq, Repr

/-- The awake test of source line 225: `hour>=wakehour and hour<bedtimehour`. -/
def awakeAt (hour wake bed : Int) : Bool :=
  decide (wake ≤ hour) && decide (hour < bed)

/-- The hourly-task block of source lines 204-219: when the hour changed
and we are not sleeping, record the new hour, re-read the control file
(adopting its values only when `result[4]` is true), and rescan/reshuffle
the picture list from the (possibly updated) folder.  Otherwise the state
is untouched. -/
def hourlyTasks (env : Env) (st : FrameState) : FrameState :=
  if env.hour ≠ st.lastHour ∧ st.sleeping = false then
    let st1 := { st with lastHour := env.hour }
    let r := checkForControlFile env.configFile st1.delay st1.wakehour
      st1.bedtimehour st1.photoFolder
    let st2 :=
      if r.2 then
        { st1 with delay := r.1.delay, wakehour := r.1.wakeHour,
                   bedtimehour := r.1.sleepHour, photoFolder := r.1.path }
      else st1
    { st2 with pictureFiles := env.rescan st2.photoFolder }
  else st

/-- One iteration of the `for fn in pictureFiles` body (source lines
195-294): hourly tasks, then the awake branch (wake up, try to decode,
on success display and wait `int(delay*1000)` ms, a pressed key sets
`done` and `break`s) or the sleep branch (go to sleep, wait 300 000 ms, a
pressed key sets `done` but does *not* break).  `k` is
`waitKey(...) & 0xff`, i.e. `keyRaw % 256` on mathematical integers; no
key is `k = 255`.  Returns the new state, the iteration's event trace,
and whether the iteration `break`s out of the `for` loop. -/
def stepIter (env : Env) (fn : List Char) (st : FrameState) :
    FrameState × List Ev × Bool :=
  let st1 := hourlyTasks env st
  if awakeAt env.hour st1.wakehour st1.bedtimehour then
    let st2 := { st1 with sleeping := false }
    let gotImg :=
      match env.decode fn with
      | some n => decide (0 < n)
      | none => false
    if gotImg then
      let evs := [Ev.display fn, Ev.wait ⌊st2.delay * 1000⌋]
      if env.keyRaw % 256 ≠ 255 then ({ st2 with done := true }, evs, true)
      else (st2, evs, false)
    else (st2, [], false)
  else
    let st2 := { st1 with sleeping := true }
    if env.keyRaw % 256 ≠ 255 then ({ st2 with done := true }, [Ev.wait 300000], false)
    else (st2, [Ev.wait 300000], false)

/-- One full pass of the `for fn in pictureFiles` loop over the catalog
captured at loop entry (Python iterates the list object bound at entry:
a rebinding of `pictureFiles` inside the pass does not affect the ongoing
iteration).  `env i` supplies iteration `i`'s external inputs; the
returned `Nat` is the next unused environment index. -/
def runPass (env : Nat → Env) : List (List Char) → Nat → FrameState →
    FrameState × List Ev × Nat
  | [], i, st => (st, [], i)
  | fn :: rest, i, st =>
    let r := stepIter (env i) fn st
    if r.2.2 then (r.1, r.2.1, i + 1)
    else
      let r2 := runPass env rest (i + 1) r.1
      (r2.1, r.2.1 ++ r2.2.1, r2.2.2)

/-- The outer `while not done` loop (source lines 191-298), run for `fuel`
checks of the `done` flag.  When `done` holds, the loop exits and
`cv2.destroyWindow` runs (the `Ev.destroy` event); the final `Bool` tells
whether the loop terminated within the given fuel. -/
def runLoop (env : Nat → Env) : Nat → Nat → FrameState → FrameState × List Ev × Bool
  | 0, _, st => (st, [], false)
  | fuel + 1, i, st =>
    if st.done then (st, [Ev.destroy], true)
    else
      let r := runPass env st.pictureFiles i st
      let r2 := runLoop env fuel r.2.2 r.1
      (r2.1, r.2.1 ++ r2.2.1, r2.2.2)

/-! ## Concrete runs used by counterexamples and witnesses -/

/-- Environment for a run that is asleep at hour 23: a key (27, Esc) is
pressed during the first iteration's wait, none afterwards. -/
def envSleepCancel : Nat → Env := fun i =>
  { hour := 23, configFile := none, rescan := fun _ => [], decode := fun _ => none,
    keyRaw := if i = 0 then 27 else -1 }

/-- A sleeping state at hour 23 with a two-entry catalog. -/
def stSleepCancel : FrameState :=
  { delay := 4, wakehour := 7, bedtimehour := 21, photoFolder := ['p'],
    lastHour := 23, sleeping := true, pictureFiles := [['a'], ['b']], done := false }

/-- Environment for an awake run in which every decode fails and no key is
ever pressed. -/
def envAwakeFail : Nat → Env := fun _ =>
  { hour := 10, configFile := none, rescan := fun _ => [], decode := fun _ => none,
    keyRaw := -1 }

/-- An awake state at hour 10 whose hour already matches `lastHour`. -/
def stAwake : FrameState :=
  { delay := 4, wakehour := 7, bedtimehour := 21, photoFolder := ['p'],
    lastHour := 10, sleeping := false, pictureFiles := [['a']], done := false }

/-- `stAwake` with an empty catalog. -/
def stEmptyCatalog : FrameState := { stAwake with pictureFiles := [] }

/-- `stSleepCancel` with the termination flag already set. -/
def stSleepDone : FrameState := { stSleepCancel with done := true }

/-- Environment at hour 11 (one hour past `stAwake.lastHour`), unreadable
control file, empty rescan, failing decode, no key. -/
def envAwakeRefresh : Nat → Env := fun _ =>
  { hour := 11, configFile := none, rescan := fun _ => [], decode := fun _ => none,
    keyRaw := -1 }

/-! ## Helper lemmas -/

/-- Unfolding step of `checkLines` for a `DELAY=` line. -/
theorem checkLines_delay (v : List Char) (rest : List (List Char)) (cfg : Config) (bits : Nat) :
    checkLines ((lDELAY ++ v) :: rest) cfg bits =
      match parseFloat v with
      | none => (cfg, bits)
      | some x => checkLines rest { cfg with delay := min 60 (max 1 x) } (bits ||| 1) := by
  conv_lhs => rw [checkLines]
  rw [show lDELAY.isPrefixOf (lDELAY ++ v) = true from by simp [lDELAY, List.isPrefixOf]]
  simp only [if_true]
  rw [show (lDELAY ++ v).drop 6 = v from rfl]

/-- Unfolding step of `checkLines` for a `WAKE=` line. -/
theorem checkLines_wake (v : List Char) (rest : List (List Char)) (cfg : Config) (bits : Nat) :
    checkLines ((lWAKE ++ v) :: rest) cfg bits =
      match parseFloat v with
      | none => (cfg, bits)
      | some x => checkLines rest { cfg with wakeHour := ⌊min 10 (max 0 x)⌋ } (bits ||| 2) := by
  conv_lhs => rw [checkLines]
  rw [show lDELAY.isPrefixOf (lWAKE ++ v) = false from by simp [lDELAY, lWAKE, List.isPrefixOf],
    show lWAKE.isPrefixOf (lWAKE ++ v) = true from by simp [lWAKE, List.isPrefixOf]]
  simp only [Bool.false_eq_true, if_false, if_true]
  rw [show (lWAKE ++ v).drop 5 = v from rfl]

/-- Unfolding step of `checkLines` for a `SLEEP=` line. -/
theorem checkLines_sleep (v : List Char) (rest : List (List Char)) (cfg : Config) (bits : Nat) :
    checkLines ((lSLEEP ++ v) :: rest) cfg bits =
      match parseFloat v with
      | none => (cfg, bits)
      | some x => checkLines rest { cfg with sleepHour := ⌊min 23 (max 0 x)⌋ } (bits ||| 4) := by
  conv_lhs => rw [checkLines]
  rw [show lDELAY.isPrefixOf (lSLEEP ++ v) = false from by simp [lDELAY, lSLEEP, List.isPrefixOf],
    show lWAKE.isPrefixOf (lSLEEP ++ v) = false from by simp [lWAKE, lSLEEP, List.isPrefixOf],
    show lSLEEP.isPrefixOf (lSLEEP ++ v) = true from by simp [lSLEEP, List.isPrefixOf]]
  simp only [Bool.false_eq_true, if_false, if_true]
  rw [show (lSLEEP ++ v).drop 6 = v from rfl]

/-- Unfolding step of `checkLines` for a `PATH=` line. -/
theorem checkLines_path (v : List Char) (rest : List (List Char)) (cfg : Config) (bits : Nat) :
    checkLines ((lPATH ++ v) :: rest) cfg bits =
      checkLines rest { cfg with path := v.dropLast } (bits ||| 8) := by
  conv_lhs => rw [checkLines]
  rw [show lDELAY.isPrefixOf (lPATH ++ v) = false from by simp [lDELAY, lPATH, List.isPrefixOf],
    show lWAKE.isPrefixOf (lPATH ++ v) = false from by simp [lWAKE, lPATH, List.isPrefixOf],
    show lSLEEP.isPrefixOf (lPATH ++ v) = false from by simp [lSLEEP, lPATH, List.isPrefixOf],
    show lPATH.isPrefixOf (lPATH ++ v) = true from by simp [lPATH, List.isPrefixOf]]
  simp only [Bool.false_eq_true, if_false, if_true]
  rw [show (lPATH ++ v).drop 5 = v from rfl]

/-- `checkLines` step for a `DELAY=` line whose value parses. -/
theorem checkLines_delay_some {v : List Char} {rest : List (List Char)} {cfg : Config}
    {bits : Nat} {x : ℚ} (hp : parseFloat v = some x) :
    checkLines ((lDELAY ++ v) :: rest) cfg bits =
      checkLines rest { cfg with delay := min 60 (max 1 x) } (bits ||| 1) := by
  rw [checkLines_delay, hp]

/-- `checkLines` step for a `WAKE=` line whose value parses. -/
theorem checkLines_wake_some {v : List Char} {rest : List (List Char)} {cfg : Config}
    {bits : Nat} {x : ℚ} (hp : parseFloat v = some x) :
    checkLines ((lWAKE ++ v) :: rest) cfg bits =
      checkLines rest { cfg with wakeHour := ⌊min 10 (max 0 x)⌋ } (bits ||| 2) := by
  rw [checkLines_wake, hp]

/-- `checkLines` step for a `SLEEP=` line whose value parses. -/
theorem checkLines_sleep_some {v : List Char} {rest : List (List Char)} {cfg : Config}
    {bits : Nat} {x : ℚ} (hp : parseFloat v = some x) :
    checkLines ((lSLEEP ++ v) :: rest) cfg bits =
      checkLines rest { cfg with sleepHour := ⌊min 23 (max 0 x)⌋ } (bits ||| 4) := by
  rw [checkLines_sleep, hp]

/-- The hourly-task block never touches the `done` flag. -/
theorem hourlyTasks_done (env : Env) (st : FrameState) :
    (hourlyTasks env st).done = st.done := by
  unfold hourlyTasks
  split
  · dsimp only
    split <;> rfl
  · rfl

/-- The hourly-task block never touches the `sleeping` flag. -/
theorem hourlyTasks_sleeping (env : Env) (st : FrameState) :
    (hourlyTasks env st).sleeping = st.sleeping := by
  unfold hourlyTasks
  split
  · dsimp only
    split <;> rfl
  · rfl

/-- Claim-side description of the state a fired hourly refresh produces:
`lastHour` updated to the current hour, the configuration fields adopted
only when the reload was valid, and the catalog replaced by a fresh
rescan/reshuffle of the resulting folder.  Compared against
`hourlyTasks` (the code) in the C2 theorem. -/
def refreshedState (env : Env) (st : FrameState) : FrameState :=
  let r := checkForControlFile env.configFile st.delay st.wakehour st.bedtimehour
    st.photoFolder
  let st2 :=
    if r.2 then
      { st with lastHour := env.hour, delay := r.1.delay, wakehour := r.1.wakeHour,
                bedtimehour := r.1.sleepHour, photoFolder := r.1.path }
    else { st with lastHour := env.hour }
  { st2 with pictureFiles := env.rescan st2.photoFolder }

/-- The hourly-task block is a no-op while sleeping or when the hour has
not changed. -/
theorem hourlyTasks_skip (env : Env) (st : FrameState)
    (h : st.sleeping = true ∨ env.hour = st.lastHour) : hourlyTasks env st = st := by
  have hc : ¬(env.hour ≠ st.lastHour ∧ st.sleeping = false) := by
    rintro ⟨hne, hsl⟩
    rcases h with h | h
    · rw [h] at hsl
      exact absurd hsl (by decide)
    · exact hne h
  unfold hourlyTasks
  rw [if_neg hc]

/-- The hourly-task block, when it fires (awake and the hour changed):
record the hour, adopt the re-read configuration only when it is valid,
and rescan from the resulting folder. -/
theorem hourlyTasks_fire (env : Env) (st : FrameState)
    (hsl : st.sleeping = false) (hne : env.hour ≠ st.lastHour) :
    hourlyTasks env st = refreshedState env st := by
  unfold hourlyTasks refreshedState
  rw [if_pos ⟨hne, hsl⟩]

/-- After the hourly-task block fires, `lastHour` holds the current hour. -/
theorem hourlyTasks_lastHour (env : Env) (st : FrameState)
    (hsl : st.sleeping = false) (hne : env.hour ≠ st.lastHour) :
    (hourlyTasks env st).lastHour = env.hour := by
  rw [hourlyTasks_fire env st hsl hne]
  unfold refreshedState
  dsimp only
  split <;> rfl

/-- A loop iteration changes the configuration fields, the catalog, and
`lastHour` only through the hourly-task block. -/
theorem stepIter_config (env : Env) (fn : List Char) (st : FrameState) :
    (stepIter env fn st).1.lastHour = (hourlyTasks env st).lastHour ∧
    (stepIter env fn st).1.pictureFiles = (hourlyTasks env st).pictureFiles ∧
    (stepIter env fn st).1.delay = (hourlyTasks env st).delay ∧
    (stepIter env fn st).1.wakehour = (hourlyTasks env st).wakehour ∧
    (stepIter env fn st).1.bedtimehour = (hourlyTasks env st).bedtimehour ∧
    (stepIter env fn st).1.photoFolder = (hourlyTasks env st).photoFolder := by
  simp only [stepIter]
  split
  · split
    · split <;> exact ⟨rfl, rfl, rfl, rfl, rfl, rfl⟩
    · exact ⟨rfl, rfl, rfl, rfl, rfl, rfl⟩
  · split <;> exact ⟨rfl, rfl, rfl, rfl, rfl, rfl⟩

/-! ## Claims -/

/-- Claim C1: the awake test of the scheduler holds exactly when
`wakeHour ≤ h < sleepHour`; with `wake=7, sleep=21` hours 6 and 21 are
asleep and hours 7 and 20 are awake; `wakeHour = sleepHour` is permanent
sleep; and after any loop iteration the `sleeping` flag is the negation of
the awake test evaluated on the current configuration. -/
theorem c1_scheduler_awake_window :
    (∀ h w b : Int, awakeAt h w b = true ↔ w ≤ h ∧ h < b) ∧
    awakeAt 6 7 21 = false ∧ awakeAt 7 7 21 = true ∧
    awakeAt 20 7 21 = true ∧ awakeAt 21 7 21 = false ∧
    (∀ h w : Int, awakeAt h w w = false) ∧
    (∀ (env : Env) (fn : List Char) (st : FrameState),
      (stepIter env fn st).1.sleeping =
        !(awakeAt env.hour (hourlyTasks env st).wakehour (hourlyTasks env st).bedtimehour)) := by
  refine ⟨?_, by decide, by decide, by decide, by decide, ?_, ?_⟩
  · intro h w b
    simp [awakeAt]
  · intro h w
    simp [awakeAt]
  · intro env fn st
    simp only [stepIter]
    split
    · rename_i hA
      rw [hA]
      split
      · split <;> rfl
      · rfl
    · rename_i hA
      rw [Bool.not_eq_true] at hA
      rw [hA]
      split <;> rfl

/-- Claim C10: the `PATH=` handler always drops the final character of the
value (`line[5:-1]`): with a trailing newline the parsed path is exactly
the text between `PATH=` and the newline, but for a `PATH=` line at end of
file without a newline the last character of the intended value is lost. -/
theorem c10_path_slice (v p0 : List Char) (d0 : ℚ) (w0 b0 : Int) :
    ((checkForControlFile (some [lPATH ++ (v ++ ['\n'])]) d0 w0 b0 p0).1).path = v ∧
    ((checkForControlFile (some [lPATH ++ v]) d0 w0 b0 p0).1).path = v.dropLast := by
  constructor
  · simp only [checkForControlFile]
    rw [checkLines_path]
    simp only [checkLines, List.dropLast_concat]
  · simp only [checkForControlFile]
    rw [checkLines_path]
    simp only [checkLines]

/-- Claim C4 counterexample: for screen 1920×1080 and image 1000×700 the
code's `int(ratio*width)` yields 1542, while the claim's
`round(scale*width)` would be 1543 (the exact scale is 54/35, so
`scale*width = 1542.857…`). -/
theorem c4_counterexample :
    (imageFit 1920 1080 1000 700).1.1 = 1542 ∧
    round (min ((1920 : ℚ) / 1000) ((1080 : ℚ) / 700) * 1000) = (1543 : Int) := by
  constructor
  · simp only [imageFit]
    norm_num [min_def, Int.floor_eq_iff]
  · norm_num [min_def, round_eq, Int.floor_eq_iff]

/-- Claim C4 (amended): `ImageFitter` computes `scale = min(W/w, H/h)`,
resized dimensions `(⌊scale*w⌋, ⌊scale*h⌋)` (truncation by Python `int()`,
not rounding), and borders `max(1, ⌊(W−resizedW)/2⌋)` and
`max(1, ⌊(H−resizedH)/2⌋)`; for screen 1920×1080 and image 1920×1080 this
gives scale 1, resized (1920, 1080) and both borders 1. -/
theorem c4_imagefit (W H : ℚ) (w h : Nat) (hw : 0 < w) (hh : 0 < h) :
    imageFit W H w h =
      ((⌊min (W / (w : ℚ)) (H / (h : ℚ)) * (w : ℚ)⌋,
        ⌊min (W / (w : ℚ)) (H / (h : ℚ)) * (h : ℚ)⌋),
       (max 1 ⌊(W - ((⌊min (W / (w : ℚ)) (H / (h : ℚ)) * (w : ℚ)⌋ : Int) : ℚ)) / 2⌋,
        max 1 ⌊(H - ((⌊min (W / (w : ℚ)) (H / (h : ℚ)) * (h : ℚ)⌋ : Int) : ℚ)) / 2⌋)) ∧
    imageFit 1920 1080 1920 1080 = ((1920, 1080), (1, 1)) :=
  ⟨rfl, by simp only [imageFit]; norm_num⟩

/-- Witness for `c4_imagefit` at the concrete 1920×1080 exact-fit case. -/
theorem c4_imagefit_witness :
    0 < 1920 ∧ imageFit 1920 1080 1920 1080 = ((1920, 1080), (1, 1)) :=
  ⟨by decide, (c4_imagefit 1920 1080 1920 1080 (by decide) (by decide)).2⟩

/-- Claim C5: a control file consisting of the four lines `DELAY=`,
`WAKE=`, `SLEEP=`, `PATH=` whose numeric values parse yields `valid=true`
with DELAY clamped to [1, 60], WAKE clamped to [0, 10] and truncated to an
integer, SLEEP clamped to [0, 23] and truncated to an integer, and PATH
taken verbatim with the trailing newline stripped. -/
theorem c5_wellformed_file (d0 : ℚ) (w0 b0 : Int) (p0 : List Char)
    (vd vw vs vp : List Char) (qd qw qs : ℚ)
    (hd : parseFloat (vd ++ ['\n']) = some qd)
    (hw : parseFloat (vw ++ ['\n']) = some qw)
    (hs : parseFloat (vs ++ ['\n']) = some qs) :
    checkForControlFile
      (some [lDELAY ++ (vd ++ ['\n']), lWAKE ++ (vw ++ ['\n']),
             lSLEEP ++ (vs ++ ['\n']), lPATH ++ (vp ++ ['\n'])]) d0 w0 b0 p0 =
      (⟨min 60 (max 1 qd), ⌊min 10 (max 0 qw)⌋, ⌊min 23 (max 0 qs)⌋, vp⟩, true) := by
  simp only [checkForControlFile]
  rw [checkLines_delay_some hd, checkLines_wake_some hw, checkLines_sleep_some hs,
    checkLines_path]
  simp only [checkLines, List.dropLast_concat]
  congr 1

/-- Witness for `c5_wellformed_file` on the sample configuration file of
the source's own docstring (delay 3.5, wake 6, sleep 21). -/
theorem c5_wellformed_file_witness :
    checkForControlFile
      (some [lDELAY ++ (['3', '.', '5'] ++ ['\n']), lWAKE ++ (['6'] ++ ['\n']),
             lSLEEP ++ (['2', '1'] ++ ['\n']), lPATH ++ (['/', 'p'] ++ ['\n'])]) 4 7 21 ['x'] =
      (⟨7 / 2, 6, 21, ['/', 'p']⟩, true) := by
  have hd : parseFloat (['3', '.', '5'] ++ ['\n']) = some (7 / 2) := by
    simp +decide [parseFloat, stripWs, isPyWhitespace, digitsVal, List.takeWhile,
      List.dropWhile]
    norm_num
  have hw : parseFloat (['6'] ++ ['\n']) = some 6 := by
    simp +decide [parseFloat, stripWs, isPyWhitespace, digitsVal, List.takeWhile,
      List.dropWhile]
  have hs : parseFloat (['2', '1'] ++ ['\n']) = some 21 := by
    simp +decide [parseFloat, stripWs, isPyWhitespace, digitsVal, List.takeWhile,
      List.dropWhile]
  rw [c5_wellformed_file 4 7 21 ['x'] ['3', '.', '5'] ['6'] ['2', '1'] ['/', 'p']
    (7 / 2) 6 21 hd hw hs]
  norm_num

/-- If no line of the file starts with `WAKE=`, bit 1 of the `readparams`
bitmask is never set by `checkLines`. -/
theorem checkLines_testBit_one (lines : List (List Char)) (cfg : Config) (bits : Nat)
    (hnw : ∀ l ∈ lines, lWAKE.isPrefixOf l = false) :
    ((checkLines lines cfg bits).2).testBit 1 = bits.testBit 1 := by
  induction lines generalizing cfg bits with
  | nil => rfl
  | cons line rest ih =>
    have h1 : lWAKE.isPrefixOf line = false := hnw line (List.mem_cons_self ..)
    have h2 : ∀ l ∈ rest, lWAKE.isPrefixOf l = false := fun l hl =>
      hnw l (List.mem_cons_of_mem _ hl)
    simp only [checkLines]
    split
    · split
      · rfl
      · rw [ih _ _ h2]
        simp +decide [Nat.testBit_lor]
    · split
      · simp_all
      · split
        · split
          · rfl
          · rw [ih _ _ h2]
            simp +decide [Nat.testBit_lor]
        · split
          · rw [ih _ _ h2]
            simp +decide [Nat.testBit_lor]
          · exact ih _ _ h2

/-- Claim C6 counterexample: for the partial file consisting of the single
line `DELAY=5` and previous values `(4, 7, 21, "x")`, the read is invalid
(`valid=false`) yet the returned delay is 5, not the previous 4 — the
previous values are *not* returned unchanged. -/
theorem c6_counterexample :
    (checkForControlFile (some [lDELAY ++ (['5'] ++ ['\n'])]) 4 7 21 ['x']).2 = false ∧
    (checkForControlFile (some [lDELAY ++ (['5'] ++ ['\n'])]) 4 7 21 ['x']).1.delay ≠ 4 := by
  have hp : parseFloat (['5'] ++ ['\n']) = some 5 := by
    simp +decide [parseFloat, stripWs, isPyWhitespace, digitsVal, List.takeWhile,
      List.dropWhile]
  constructor
  · simp only [checkForControlFile]
    rw [checkLines_delay_some hp]
    simp only [checkLines]
    decide
  · simp only [checkForControlFile]
    rw [checkLines_delay_some hp]
    simp only [checkLines]
    norm_num

/-- Claim C6 (amended): on every failing read `checkForControlFile`
returns `valid=false` and no exception escapes; when the file is
unreadable the previous values are returned unchanged, and when a required
key is absent (here: no `WAKE=` line) the read is invalid — though fields
parsed before the failure point may appear updated in the returned list,
callers only adopt the values when `valid=true`, so the effective
configuration is unchanged. -/
theorem c6_failed_reload (d0 : ℚ) (w0 b0 : Int) (p0 : List Char)
    (lines : List (List Char))
    (hnw : ∀ l ∈ lines, lWAKE.isPrefixOf l = false) :
    checkForControlFile none d0 w0 b0 p0 = (⟨d0, w0, b0, p0⟩, false) ∧
    (checkForControlFile (some lines) d0 w0 b0 p0).2 = false := by
  refine ⟨rfl, ?_⟩
  have hb := checkLines_testBit_one lines ⟨d0, w0, b0, p0⟩ 0 hnw
  simp only [checkForControlFile]
  rw [beq_eq_false_iff_ne]
  intro h15
  rw [h15] at hb
  exact absurd hb (by decide)

/-- Witness for `c6_failed_reload`: an unreadable file and a one-line file
with no `WAKE=` key. -/
theorem c6_failed_reload_witness :
    checkForControlFile none 4 7 21 ['x'] = (⟨4, 7, 21, ['x']⟩, false) ∧
    (checkForControlFile (some [['A']]) 4 7 21 ['x']).2 = false :=
  c6_failed_reload 4 7 21 ['x'] [['A']] (by decide)

/-- Claim C2: the hourly refresh fires on a loop iteration exactly when
not sleeping and the wall-clock hour differs from `lastHour`; when it
fires it replaces delay/wake/sleep/folder only if the reload was valid,
replaces the catalog with a fresh scan/shuffle regardless, and records the
hour so that a second check within the same hour is a no-op; while asleep
an hour change never triggers a refresh; and the rest of the iteration
never touches these fields. -/
theorem c2_hourly_refresh (env env2 : Env) (fn : List Char) (st : FrameState) :
    ((st.sleeping = true ∨ env.hour = st.lastHour) → hourlyTasks env st = st) ∧
    (st.sleeping = false → env.hour ≠ st.lastHour →
      hourlyTasks env st = refreshedState env st) ∧
    (env2.hour = env.hour → hourlyTasks env2 (hourlyTasks env st) = hourlyTasks env st) ∧
    ((stepIter env fn st).1.lastHour = (hourlyTasks env st).lastHour ∧
     (stepIter env fn st).1.pictureFiles = (hourlyTasks env st).pictureFiles ∧
     (stepIter env fn st).1.delay = (hourlyTasks env st).delay ∧
     (stepIter env fn st).1.wakehour = (hourlyTasks env st).wakehour ∧
     (stepIter env fn st).1.bedtimehour = (hourlyTasks env st).bedtimehour ∧
     (stepIter env fn st).1.photoFolder = (hourlyTasks env st).photoFolder) := by
  refine ⟨hourlyTasks_skip env st, hourlyTasks_fire env st, ?_, stepIter_config env fn st⟩
  intro he
  by_cases hs : st.sleeping = true
  · rw [hourlyTasks_skip env st (Or.inl hs), hourlyTasks_skip env2 st (Or.inl hs)]
  · have hsl : st.sleeping = false := by
      rwa [Bool.not_eq_true] at hs
    by_cases hh : env.hour = st.lastHour
    · rw [hourlyTasks_skip env st (Or.inr hh)]
      exact hourlyTasks_skip env2 st (Or.inr (he.trans hh))
    · have hl := hourlyTasks_lastHour env st hsl hh
      exact hourlyTasks_skip env2 (hourlyTasks env st) (Or.inr (he.trans hl.symm))

/-- Witness for `c2_hourly_refresh`: the refresh is skipped while asleep,
fires on an hour change while awake, and re-checking within the same hour
is a no-op. -/
theorem c2_hourly_refresh_witness :
    hourlyTasks (envSleepCancel 0) stSleepCancel = stSleepCancel ∧
    hourlyTasks (envAwakeRefresh 0) stAwake = refreshedState (envAwakeRefresh 0) stAwake ∧
    hourlyTasks (envAwakeRefresh 0) (hourlyTasks (envAwakeRefresh 0) stAwake) =
      hourlyTasks (envAwakeRefresh 0) stAwake :=
  ⟨(c2_hourly_refresh (envSleepCancel 0) (envSleepCancel 0) ['a'] stSleepCancel).1
      (Or.inl rfl),
   (c2_hourly_refresh (envAwakeRefresh 0) (envAwakeRefresh 0) ['a'] stAwake).2.1
      rfl (by decide),
   (c2_hourly_refresh (envAwakeRefresh 0) (envAwakeRefresh 0) ['a'] stAwake).2.2.1 rfl⟩

/-- Claim C7: when the awake branch is taken and the decode of the current
path fails (read failure or a zero-length image), the iteration emits no
display and no wait, does not break out of the loop, and leaves the
termination flag unchanged — the entry is simply skipped. -/
theorem c7_decode_failure_skips (env : Env) (fn : List Char) (st : FrameState)
    (ha : awakeAt env.hour (hourlyTasks env st).wakehour (hourlyTasks env st).bedtimehour
      = true)
    (hf : env.decode fn = none ∨ env.decode fn = some 0) :
    stepIter env fn st = ({ hourlyTasks env st with sleeping := false }, [], false) ∧
    (stepIter env fn st).1.done = st.done := by
  have h1 : stepIter env fn st = ({ hourlyTasks env st with sleeping := false }, [], false) := by
    rcases hf with h | h <;> simp [stepIter, ha, h]
  refine ⟨h1, ?_⟩
  rw [h1]
  exact hourlyTasks_done env st

/-- Witness for `c7_decode_failure_skips`: awake at hour 10, decode of the
only catalog entry fails, the iteration is a pure skip. -/
theorem c7_decode_failure_skips_witness :
    stepIter (envAwakeFail 0) ['a'] stAwake = (stAwake, [], false) ∧
    (stepIter (envAwakeFail 0) ['a'] stAwake).1.done = stAwake.done := by
  have h := c7_decode_failure_skips (envAwakeFail 0) ['a'] stAwake (by decide) (Or.inl rfl)
  exact ⟨h.1.trans (by decide), h.2⟩

/-- Claim C3 counterexample: asleep with a two-entry catalog, a key is
pressed during the first 300-second wait; the termination flag is set
after the first iteration, yet the pass still runs the second iteration
and performs a *second* 300-second wait before the surface is finally
released — cancellation during sleep does not terminate the loop
immediately (the sleep branch sets `done` but, unlike the awake branch,
does not `break`). -/
theorem c3_counterexample :
    (stepIter (envSleepCancel 0) ['a'] stSleepCancel).1.done = true ∧
    runLoop envSleepCancel 2 0 stSleepCancel =
      ({ stSleepCancel with done := true },
       [Ev.wait 300000, Ev.wait 300000, Ev.destroy], true) := by
  constructor
  · decide
  · decide

/-- Claim C3 (amended): in every loop state whose iteration takes the
sleep branch, the iteration performs a single 300 000 ms cancellable wait
and no display; a key (masked code ≠ 255) sets the termination flag but
the iteration does not break, so the pass continues with the remaining
catalog entries; the outer loop then exits at its next `done` check, at
which point the display surface is released. -/
theorem c3_sleep_wait (env : Env) (envs : Nat → Env) (fn : List Char) (st : FrameState)
    (fuel i : Nat)
    (hn : awakeAt env.hour (hourlyTasks env st).wakehour (hourlyTasks env st).bedtimehour
      = false) :
    stepIter env fn st =
      ({ hourlyTasks env st with sleeping := true,
                                 done := if env.keyRaw % 256 ≠ 255 then true
                                         else (hourlyTasks env st).done },
       [Ev.wait 300000], false) ∧
    (st.done = true → runLoop envs (fuel + 1) i st = (st, [Ev.destroy], true)) := by
  constructor
  · by_cases hk : env.keyRaw % 256 ≠ 255
    · simp [stepIter, hn, hk]
    · simp [stepIter, hn, hk]
  · intro hdone
    simp [runLoop, hdone]

/-- Witness for `c3_sleep_wait`: asleep at hour 23 with the flag already
set and no key pressed; the iteration just waits, and the outer loop exits
releasing the surface. -/
theorem c3_sleep_wait_witness :
    stepIter (envSleepCancel 1) ['a'] stSleepDone = (stSleepDone, [Ev.wait 300000], false) ∧
    runLoop envSleepCancel 1 0 stSleepDone = (stSleepDone, [Ev.destroy], true) := by
  have h := c3_sleep_wait (envSleepCancel 1) envSleepCancel ['a'] stSleepDone 0 0 (by decide)
  exact ⟨h.1.trans (by decide), h.2 rfl⟩

/-- Claim C9: with an empty catalog the inner `for` body never executes,
so the outer loop performs no wait at all, never observes a cancellation
signal, and never releases the display surface: for every amount of fuel
the loop is still running with an unchanged state and an empty event
trace. -/
theorem c9_empty_catalog_spins (envs : Nat → Env) (fuel i : Nat) (st : FrameState)
    (hp : st.pictureFiles = []) (hd : st.done = false) :
    runLoop envs fuel i st = (st, [], false) := by
  induction fuel generalizing i with
  | zero => rfl
  | succ n ih =>
    rw [runLoop]
    rw [if_neg (by simp [hd])]
    rw [hp]
    simp only [runPass]
    rw [ih i]
    simp

/-- Witness for `c9_empty_catalog_spins` with three units of fuel. -/
theorem c9_empty_catalog_spins_witness :
    runLoop envAwakeFail 3 0 stEmptyCatalog = (stEmptyCatalog, [], false) :=
  c9_empty_catalog_spins envAwakeFail 3 0 stEmptyCatalog rfl rfl

/-- The scan of a directory is the concatenation of each entry's
contribution, in entry order. -/
theorem scanForFiles_cons (folder : List Char) (e : FSEntry) (rest : List FSEntry) :
    scanForFiles folder (e :: rest) = scanOne folder e ++ scanForFiles folder rest := by
  cases e <;> simp [scanForFiles, scanOne]

/-- The scan returns exactly the regular files of the tree whose name
passes the case-insensitive `.jpg`/`.png` test, in traversal order. -/
theorem scanForFiles_eq_filter : ∀ (folder : List Char) (es : List FSEntry),
    scanForFiles folder es =
      ((allFiles folder es).filter fun pn => eligibleName pn.2).map Prod.fst
  | folder, [] => by simp [scanForFiles, allFiles]
  | folder, FSEntry.file n :: rest => by
    simp only [scanForFiles, allFiles, List.filter_cons]
    rw [scanForFiles_eq_filter folder rest]
    by_cases h : eligibleName n
    · simp [h]
    · simp [h]
  | folder, FSEntry.dir n cs :: rest => by
    simp only [scanForFiles, allFiles, List.filter_append, List.map_append]
    rw [scanForFiles_eq_filter (entryPath folder n) cs,
      scanForFiles_eq_filter folder rest]

/-- The scan result is invariant, up to permutation, under reordering of
the directory entries (the traversal order `os.scandir` happens to use). -/
theorem scanForFiles_perm (folder : List Char) {es₁ es₂ : List FSEntry}
    (h : es₁.Perm es₂) :
    (scanForFiles folder es₁).Perm (scanForFiles folder es₂) := by
  induction h with
  | nil => exact List.Perm.refl _
  | cons x _ ih =>
    rw [scanForFiles_cons, scanForFiles_cons]
    exact ih.append_left _
  | swap x y l =>
    rw [scanForFiles_cons, scanForFiles_cons, scanForFiles_cons, scanForFiles_cons]
    rw [← List.append_assoc, ← List.append_assoc]
    exact List.perm_append_comm.append_right _
  | trans _ _ ih₁ ih₂ => exact ih₁.trans ih₂

/-- Claim C8: `scanForFiles` returns exactly the regular files whose name
ends case-insensitively in `.jpg` or `.png`, recursing into every
subdirectory; the result is permutation-invariant in the entry order; and
on the tree `{a.JPG, b.png, c.txt, sub/d.jpg}` it returns exactly
`{a.JPG, b.png, sub/d.jpg}`. -/
theorem c8_scanner (root : List Char) (es es2 : List FSEntry) (hperm : es.Perm es2) :
    scanForFiles root es =
      ((allFiles root es).filter fun pn => eligibleName pn.2).map Prod.fst ∧
    (scanForFiles root es).Perm (scanForFiles root es2) ∧
    scanForFiles ['r']
      [FSEntry.file ['a', '.', 'J', 'P', 'G'], FSEntry.file ['b', '.', 'p', 'n', 'g'],
       FSEntry.file ['c', '.', 't', 'x', 't'],
       FSEntry.dir ['s', 'u', 'b'] [FSEntry.file ['d', '.', 'j', 'p', 'g']]] =
      [['r', '/', 'a', '.', 'J', 'P', 'G'], ['r', '/', 'b', '.', 'p', 'n', 'g'],
       ['r', '/', 's', 'u', 'b', '/', 'd', '.', 'j', 'p', 'g']] :=
  ⟨scanForFiles_eq_filter root es, scanForFiles_perm root hperm,
   by simp +decide [scanForFiles, eligibleName, entryPath]⟩

/-- Witness for `c8_scanner`: swapping two top-level entries permutes the
scan result. -/
theorem c8_scanner_witness :
    (scanForFiles ['r']
      [FSEntry.file ['a', '.', 'j', 'p', 'g'], FSEntry.file ['b', '.', 't', 'x', 't']]).Perm
      (scanForFiles ['r']
        [FSEntry.file ['b', '.', 't', 'x', 't'], FSEntry.file ['a', '.', 'j', 'p', 'g']]) :=
  (c8_scanner ['r'] _ _ (List.Perm.swap _ _ [])).2.1

end FotoFrame
